import Mathlib

/-!
Shallow embedding of the Freefall model (freefall.py).

The five physical parameters are modelled as exact rationals.  Python's
dynamic argument checking is modelled by a small universe `PyVal` of the
argument shapes the claims talk about; `isNum` mirrors
`isinstance(x, (int, float))` (note that in Python `bool` is a subclass of
`int`, so booleans pass that check, with `True == 1` and `False == 0`).
Methods that can raise are embedded as functions returning the error as
data; methods that mutate return the updated record.  The unbounded
`while` loop of `_calculator` is embedded with explicit fuel: `run` returns
`some finalState` as soon as the loop condition fails, and `Option.none` if the
fuel is exhausted while the object is still falling.  `round(x, 2)` is
Python 3 rounding: to 2 decimal digits, ties to even.
-/

/-- Shapes a Python argument can have, as far as the validation code cares. -/
inductive PyVal where
  | int : ℤ → PyVal
  | float : ℚ → PyVal
  | bool : Bool → PyVal
  | str : String → PyVal
  | none : PyVal
  | list : List PyVal → PyVal

/-- The two error kinds raised by freefall.py. -/
inductive PyErr where
  | typeError : PyErr
  | valueError : PyErr
deriving DecidableEq

/-- isinstance(x, (int, float)).  Python booleans are instances of int. -/
def isNum : PyVal → Bool
  | .int _ => true
  | .float _ => true
  | .bool _ => true
  | _ => false

/-- Numeric value of an argument (in Python arithmetic True == 1, False == 0). -/
def numVal : PyVal → ℚ
  | .int n => (n : ℚ)
  | .float q => q
  | .bool b => if b then 1 else 0
  | _ => 0

/-- Integer that `round` maps `x` to: nearest, ties to even (Python 3). -/
def rnd2core (x : ℚ) : ℤ :=
  if x < (⌊x⌋ : ℚ) + 1 / 2 then ⌊x⌋
  else if (⌊x⌋ : ℚ) + 1 / 2 < x then ⌊x⌋ + 1
  else if ⌊x⌋ % 2 = 0 then ⌊x⌋ else ⌊x⌋ + 1

/-- round(x, 2): round to two decimal digits, ties to even. -/
def round2 (x : ℚ) : ℚ := (rnd2core (100 * x) : ℚ) / 100

/-- Real-number version of `rnd2core`, for the closed-form spec values. -/
noncomputable def rnd2coreR (x : ℝ) : ℤ :=
  if x < (⌊x⌋ : ℝ) + 1 / 2 then ⌊x⌋
  else if (⌊x⌋ : ℝ) + 1 / 2 < x then ⌊x⌋ + 1
  else if ⌊x⌋ % 2 = 0 then ⌊x⌋ else ⌊x⌋ + 1

/-- Real-number version of `round2`. -/
noncomputable def round2R (x : ℝ) : ℝ := (rnd2coreR (100 * x) : ℝ) / 100

/-- The five fields set by `Freefall.__init__`. -/
structure Freefall where
  m : ℚ
  A : ℚ
  C : ℚ
  p : ℚ
  g : ℚ
deriving DecidableEq

/-- The documented invariant on the five fields. -/
def Valid (f : Freefall) : Prop :=
  0 < f.m ∧ 0 < f.A ∧ 0 < f.C ∧ f.C < 2 ∧ 0 ≤ f.p ∧ 0 < f.g

instance (f : Freefall) : Decidable (Valid f) := by
  unfold Valid; infer_instance

/-- `Freefall.__init__(mass, area, drag_coef, density, gravity)`: all five
arguments type-checked first, then the positivity loop over mass, area,
drag_coef, gravity, then `drag_coef >= 2 or density < 0`. -/
def Freefall.construct (mass area drag_coef density gravity : PyVal) :
    Except PyErr Freefall :=
  if !(isNum mass && isNum area && isNum drag_coef && isNum density && isNum gravity) then
    .error .typeError
  else if numVal mass ≤ 0 ∨ numVal area ≤ 0 ∨ numVal drag_coef ≤ 0 ∨ numVal gravity ≤ 0 then
    .error .valueError
  else if 2 ≤ numVal drag_coef ∨ numVal density < 0 then
    .error .valueError
  else
    .ok ⟨numVal mass, numVal area, numVal drag_coef, numVal density, numVal gravity⟩

/-- `set_drag_coef`: the updated object together with the raised error, if any. -/
def Freefall.set_drag_coef (f : Freefall) (drag_coef : PyVal) : Freefall × Option PyErr :=
  if !(isNum drag_coef) then (f, some .typeError)
  else if numVal drag_coef ≤ 0 ∨ 2 ≤ numVal drag_coef then (f, some .valueError)
  else ({ f with C := numVal drag_coef }, Option.none)

/-- `set_density`. -/
def Freefall.set_density (f : Freefall) (density : PyVal) : Freefall × Option PyErr :=
  if !(isNum density) then (f, some .typeError)
  else if numVal density < 0 then (f, some .valueError)
  else ({ f with p := numVal density }, Option.none)

/-- `set_gravity`. -/
def Freefall.set_gravity (f : Freefall) (gravity : PyVal) : Freefall × Option PyErr :=
  if !(isNum gravity) then (f, some .typeError)
  else if numVal gravity ≤ 0 then (f, some .valueError)
  else ({ f with g := numVal gravity }, Option.none)

/-- `set_size(mass, area)`: both assignments happen after both checks. -/
def Freefall.set_size (f : Freefall) (mass area : PyVal) : Freefall × Option PyErr :=
  if !(isNum mass && isNum area) then (f, some .typeError)
  else if numVal mass ≤ 0 ∨ numVal area ≤ 0 then (f, some .valueError)
  else ({ f with m := numVal mass, A := numVal area }, Option.none)

/-- `properties()`: the labelled snapshot of the five fields. -/
def Freefall.properties (f : Freefall) : List (String × ℚ) :=
  [("m (kg)", f.m), ("A (m^2)", f.A), ("C", f.C),
   ("p (kg/(m^3))", f.p), ("g (m/(s^2))", f.g)]

/-- `terminal()`: None when p = 0, otherwise round(sqrt(2 m g / (p C A)), 2). -/
noncomputable def Freefall.terminal (f : Freefall) : Option ℝ :=
  if f.p = 0 then Option.none
  else some (round2R (Real.sqrt (((2 * f.m * f.g) / (f.p * f.C * f.A) : ℚ) : ℝ)))

/-- The fixed timestep, 0.01 s. -/
def tstep : ℚ := 1 / 100

/-- One iteration of the `while` body of `_calculator` on the loop state
(height, v, t): drag = 0.5*C*p*A*v^2, acc = g - drag/m, v += acc*step,
height -= v*step, t += step. -/
def Freefall.stepOnce (f : Freefall) (s : ℚ × ℚ × ℚ) : ℚ × ℚ × ℚ :=
  (s.1 - (s.2.1 + (f.g - 1 / 2 * f.C * f.p * f.A * s.2.1 ^ 2 / f.m) * tstep) * tstep,
   s.2.1 + (f.g - 1 / 2 * f.C * f.p * f.A * s.2.1 ^ 2 / f.m) * tstep,
   s.2.2 + tstep)

/-- The loop state after n iterations of the body. -/
def Freefall.iter (f : Freefall) (s : ℚ × ℚ × ℚ) : ℕ → ℚ × ℚ × ℚ
  | 0 => s
  | n + 1 => f.stepOnce (f.iter s n)

/-- The `while height > 0` loop with explicit fuel: `some finalState` once the
condition fails, `Option.none` if the fuel runs out while it still holds. -/
def Freefall.run (f : Freefall) : ℕ → ℚ × ℚ × ℚ → Option (ℚ × ℚ × ℚ)
  | 0, s => if 0 < s.1 then Option.none else some s
  | fuel + 1, s => if 0 < s.1 then f.run fuel (f.stepOnce s) else some s

/-- `_calculator(height)`, projected to the pair
(time_vector[-1], speed_vector[-1]) that the two public queries read. -/
def Freefall.calculator (f : Freefall) (height : ℚ) (fuel : ℕ) : Option (ℚ × ℚ) :=
  (f.run fuel (height, 0, 0)).map (fun s => (s.2.2, s.2.1))

/-- `air_time(height)` on an already validated height: round(t_air, 2). -/
def Freefall.air_time (f : Freefall) (height : ℚ) (fuel : ℕ) : Option ℚ :=
  (f.calculator height fuel).map (fun r => round2 r.1)

/-- `landing_speed(height)` on an already validated height: round(v_land, 2). -/
def Freefall.landing_speed (f : Freefall) (height : ℚ) (fuel : ℕ) : Option ℚ :=
  (f.calculator height fuel).map (fun r => round2 r.2)

/-- `air_time` with its argument validation, also returning the object the
caller is left with. -/
def Freefall.air_timeF (f : Freefall) (height : PyVal) (fuel : ℕ) :
    Except PyErr (Option ℚ) × Freefall :=
  if !(isNum height) then (.error .typeError, f)
  else if numVal height ≤ 0 then (.error .valueError, f)
  else (.ok (f.air_time (numVal height) fuel), f)

/-- `landing_speed` with its argument validation. -/
def Freefall.landing_speedF (f : Freefall) (height : PyVal) (fuel : ℕ) :
    Except PyErr (Option ℚ) × Freefall :=
  if !(isNum height) then (.error .typeError, f)
  else if numVal height ≤ 0 then (.error .valueError, f)
  else (.ok (f.landing_speed (numVal height) fuel), f)

/-- `properties()` as a call on the object: result plus the object afterwards. -/
def Freefall.propertiesS (f : Freefall) : List (String × ℚ) × Freefall :=
  (f.properties, f)

/-- `terminal()` as a call on the object: result plus the object afterwards. -/
noncomputable def Freefall.terminalS (f : Freefall) : Option ℝ × Freefall :=
  (f.terminal, f)

/-- The loop leaves `_calculator` for the first time at step n: the height is
still positive at every earlier step and not at step n. -/
def Freefall.isStop (f : Freefall) (s : ℚ × ℚ × ℚ) (n : ℕ) : Prop :=
  (f.iter s n).1 ≤ 0 ∧ ∀ k < n, 0 < (f.iter s k).1

instance (f : Freefall) (s : ℚ × ℚ × ℚ) (n : ℕ) : Decidable (f.isStop s n) := by
  unfold Freefall.isStop; infer_instance

/-! Basic lemmas about the loop. -/

lemma iter_zero (f : Freefall) (s : ℚ × ℚ × ℚ) : f.iter s 0 = s := rfl

lemma iter_succ (f : Freefall) (s : ℚ × ℚ × ℚ) (n : ℕ) :
    f.iter s (n + 1) = f.stepOnce (f.iter s n) := rfl

lemma iter_succ_shift (f : Freefall) (s : ℚ × ℚ × ℚ) (n : ℕ) :
    f.iter s (n + 1) = f.iter (f.stepOnce s) n := by
  induction n with
  | zero => rfl
  | succ n ih => rw [iter_succ, ih, iter_succ]

lemma iter_time (f : Freefall) (h v t : ℚ) (n : ℕ) :
    (f.iter (h, v, t) n).2.2 = t + n * tstep := by
  induction n with
  | zero => simp [Freefall.iter]
  | succ n ih =>
      rw [iter_succ, Freefall.stepOnce]
      simp only [ih]
      push_cast
      ring

lemma iter_affine (f : Freefall) (h h2 v t t2 : ℚ) (n : ℕ) :
    (f.iter (h, v, t) n).2.1 = (f.iter (h2, v, t2) n).2.1 ∧
    (f.iter (h, v, t) n).1 - h = (f.iter (h2, v, t2) n).1 - h2 := by
  induction n with
  | zero => simp [Freefall.iter]
  | succ n ih =>
      rw [iter_succ, iter_succ, Freefall.stepOnce, Freefall.stepOnce]
      constructor
      · simp only [ih.1]
      · simp only [ih.1]
        have h2' := ih.2
        ring_nf
        ring_nf at h2'
        linarith

lemma run_of_isStop (f : Freefall) :
    ∀ (n : ℕ) (s : ℚ × ℚ × ℚ) (fuel : ℕ), f.isStop s n → n ≤ fuel →
      f.run fuel s = some (f.iter s n) := by
  intro n
  induction n with
  | zero =>
      intro s fuel hstop _
      have h0 : ¬ 0 < s.1 := not_lt.mpr hstop.1
      cases fuel <;> simp [Freefall.run, h0, Freefall.iter]
  | succ n ih =>
      intro s fuel hstop hfuel
      obtain ⟨fuel, rfl⟩ : ∃ fl, fuel = fl + 1 := ⟨fuel - 1, by omega⟩
      have h0 : 0 < s.1 := hstop.2 0 (Nat.succ_pos n)
      have hstep : f.isStop (f.stepOnce s) n := by
        constructor
        · rw [← iter_succ_shift]; exact hstop.1
        · intro k hk
          rw [← iter_succ_shift]
          exact hstop.2 (k + 1) (by omega)
      rw [show f.run (fuel + 1) s = f.run fuel (f.stepOnce s) by simp [Freefall.run, h0]]
      rw [iter_succ_shift]
      exact ih (f.stepOnce s) fuel hstep (by omega)

lemma run_spec (f : Freefall) :
    ∀ (fuel : ℕ) (s out : ℚ × ℚ × ℚ), f.run fuel s = some out →
      ∃ n, n ≤ fuel ∧ f.isStop s n ∧ out = f.iter s n := by
  intro fuel
  induction fuel with
  | zero =>
      intro s out hr
      unfold Freefall.run at hr
      by_cases h : 0 < s.1
      · rw [if_pos h] at hr; cases hr
      · rw [if_neg h] at hr
        refine ⟨0, le_rfl, ⟨not_lt.mp h, by intro k hk; omega⟩, ?_⟩
        injection hr with hr
        rw [← hr]; rfl
  | succ fuel ih =>
      intro s out hr
      unfold Freefall.run at hr
      by_cases h : 0 < s.1
      · rw [if_pos h] at hr
        obtain ⟨n, hn, hstop, hout⟩ := ih (f.stepOnce s) out hr
        refine ⟨n + 1, by omega, ⟨?_, ?_⟩, ?_⟩
        · rw [iter_succ_shift]; exact hstop.1
        · intro k hk
          cases k with
          | zero => exact h
          | succ k => rw [iter_succ_shift]; exact hstop.2 k (by omega)
        · rw [iter_succ_shift]; exact hout
      · rw [if_neg h] at hr
        refine ⟨0, by omega, ⟨not_lt.mp h, by intro k hk; omega⟩, ?_⟩
        injection hr with hr
        rw [← hr]; rfl

lemma isStop_unique (f : Freefall) (s : ℚ × ℚ × ℚ) {n n2 : ℕ}
    (h1 : f.isStop s n) (h2 : f.isStop s n2) : n = n2 := by
  by_contra hne
  rcases Nat.lt_or_ge n n2 with h | h
  · exact absurd h1.1 (not_le.mpr (h2.2 n h))
  · have : n2 < n := by omega
    exact absurd h2.1 (not_le.mpr (h1.2 n2 this))

/-! Lemmas about rounding. -/

lemma rnd2core_intCast (n : ℤ) : rnd2core (n : ℚ) = n := by
  unfold rnd2core
  rw [Int.floor_intCast]
  norm_num

lemma round2_nat_tstep (n : ℕ) : round2 ((n : ℚ) * tstep) = (n : ℚ) * tstep := by
  unfold round2 tstep
  rw [show (100 : ℚ) * ((n : ℚ) * (1 / 100)) = ((n : ℤ) : ℚ) by push_cast; ring]
  rw [rnd2core_intCast]
  push_cast
  ring

lemma rnd2core_le_succ_floor (x : ℚ) : rnd2core x ≤ ⌊x⌋ + 1 := by
  unfold rnd2core; split_ifs <;> omega

lemma floor_le_rnd2core (x : ℚ) : ⌊x⌋ ≤ rnd2core x := by
  unfold rnd2core; split_ifs <;> omega

lemma rnd2core_mono {x y : ℚ} (hxy : x ≤ y) : rnd2core x ≤ rnd2core y := by
  have hff : ⌊x⌋ ≤ ⌊y⌋ := Int.floor_mono hxy
  rcases lt_or_eq_of_le hff with hlt | heq
  · have hx := rnd2core_le_succ_floor x
    have hy := floor_le_rnd2core y
    omega
  · unfold rnd2core
    rw [← heq]
    split_ifs <;> first | omega | linarith

lemma round2_mono {x y : ℚ} (hxy : x ≤ y) : round2 x ≤ round2 y := by
  unfold round2
  have h := rnd2core_mono (show 100 * x ≤ 100 * y by linarith)
  have h2 : ((rnd2core (100 * x) : ℤ) : ℚ) ≤ ((rnd2core (100 * y) : ℤ) : ℚ) := by
    exact_mod_cast h
  linarith

lemma rnd2coreR_nonneg {x : ℝ} (hx : 0 ≤ x) : 0 ≤ rnd2coreR x := by
  have hf : (0 : ℤ) ≤ ⌊x⌋ := Int.floor_nonneg.mpr hx
  unfold rnd2coreR
  split_ifs <;> omega

lemma round2R_nonneg {x : ℝ} (hx : 0 ≤ x) : 0 ≤ round2R x := by
  unfold round2R
  have h : (0 : ℤ) ≤ rnd2coreR (100 * x) := rnd2coreR_nonneg (by linarith)
  have h2 : (0 : ℝ) ≤ (rnd2coreR (100 * x) : ℝ) := by exact_mod_cast h
  positivity

lemma rnd2coreR_ratCast (q : ℚ) : rnd2coreR (q : ℝ) = rnd2core q := by
  have hfl : ⌊(q : ℝ)⌋ = ⌊q⌋ := Rat.floor_cast q
  unfold rnd2coreR rnd2core
  rw [hfl]
  by_cases h1 : q < (⌊q⌋ : ℚ) + 1 / 2
  · have h1R : (q : ℝ) < ((⌊q⌋ : ℤ) : ℝ) + 1 / 2 := by
      have h' : ((q : ℚ) : ℝ) < (((⌊q⌋ : ℚ) + 1 / 2 : ℚ) : ℝ) := Rat.cast_lt.mpr h1
      push_cast at h'
      linarith
    rw [if_pos h1R, if_pos h1]
  · have h1' : (⌊q⌋ : ℚ) + 1 / 2 ≤ q := not_lt.mp h1
    have h1R : ¬ ((q : ℝ) < ((⌊q⌋ : ℤ) : ℝ) + 1 / 2) := by
      refine not_lt.mpr ?_
      have h' : (((⌊q⌋ : ℚ) + 1 / 2 : ℚ) : ℝ) ≤ ((q : ℚ) : ℝ) := Rat.cast_le.mpr h1'
      push_cast at h'
      linarith
    rw [if_neg h1R, if_neg h1]
    by_cases h2 : (⌊q⌋ : ℚ) + 1 / 2 < q
    · have h2R : ((⌊q⌋ : ℤ) : ℝ) + 1 / 2 < (q : ℝ) := by
        have h' : (((⌊q⌋ : ℚ) + 1 / 2 : ℚ) : ℝ) < ((q : ℚ) : ℝ) := Rat.cast_lt.mpr h2
        push_cast at h'
        linarith
      rw [if_pos h2R, if_pos h2]
    · have h2' : q ≤ (⌊q⌋ : ℚ) + 1 / 2 := not_lt.mp h2
      have h2R : ¬ (((⌊q⌋ : ℤ) : ℝ) + 1 / 2 < (q : ℝ)) := by
        refine not_lt.mpr ?_
        have h' : ((q : ℚ) : ℝ) ≤ (((⌊q⌋ : ℚ) + 1 / 2 : ℚ) : ℝ) := Rat.cast_le.mpr h2'
        push_cast at h'
        linarith
      rw [if_neg h2R, if_neg h2]

lemma round2R_ratCast (q : ℚ) : round2R (q : ℝ) = ((round2 q : ℚ) : ℝ) := by
  unfold round2R round2
  rw [show (100 : ℝ) * (q : ℝ) = ((100 * q : ℚ) : ℝ) by push_cast; ring]
  rw [rnd2coreR_ratCast]
  push_cast
  ring

/-! The vacuum (airDensity = 0) closed form of the loop state. -/

lemma vacuum_iter (f : Freefall) (hp : f.p = 0) (h : ℚ) (n : ℕ) :
    f.iter (h, 0, 0) n =
      (h - f.g * n * (n + 1) / 20000, f.g * n / 100, (n : ℚ) / 100) := by
  induction n with
  | zero => simp [Freefall.iter]
  | succ n ih =>
      rw [iter_succ, ih]
      simp only [Freefall.stepOnce, hp, Prod.mk.injEq, tstep]
      refine ⟨?_, ?_, ?_⟩ <;> (push_cast; ring)

/-! Extraction lemmas for the two public queries. -/

lemma air_time_run (f : Freefall) {h : ℚ} {fuel : ℕ} {t : ℚ}
    (ha : f.air_time h fuel = some t) :
    ∃ s, f.run fuel (h, 0, 0) = some s ∧ t = round2 s.2.2 := by
  unfold Freefall.air_time Freefall.calculator at ha
  cases hr : f.run fuel (h, 0, 0) with
  | none => rw [hr] at ha; simp at ha
  | some s =>
      rw [hr] at ha
      simp at ha
      exact ⟨s, rfl, ha.symm⟩

lemma landing_speed_run (f : Freefall) {h : ℚ} {fuel : ℕ} {v : ℚ}
    (hl : f.landing_speed h fuel = some v) :
    ∃ s, f.run fuel (h, 0, 0) = some s ∧ v = round2 s.2.1 := by
  unfold Freefall.landing_speed Freefall.calculator at hl
  cases hr : f.run fuel (h, 0, 0) with
  | none => rw [hr] at hl; simp at hl
  | some s =>
      rw [hr] at hl
      simp at hl
      exact ⟨s, rfl, hl.symm⟩

lemma air_time_stop (f : Freefall) {h : ℚ} {fuel : ℕ} {t : ℚ}
    (ha : f.air_time h fuel = some t) :
    ∃ n, n ≤ fuel ∧ f.isStop (h, 0, 0) n ∧ t = (n : ℚ) * tstep := by
  obtain ⟨s, hr, ht⟩ := air_time_run f ha
  obtain ⟨n, hn, hstop, hout⟩ := run_spec f fuel _ s hr
  refine ⟨n, hn, hstop, ?_⟩
  rw [ht, hout, iter_time, zero_add, round2_nat_tstep]

lemma landing_speed_stop (f : Freefall) {h : ℚ} {fuel : ℕ} {v : ℚ}
    (hl : f.landing_speed h fuel = some v) :
    ∃ n, n ≤ fuel ∧ f.isStop (h, 0, 0) n ∧ v = round2 ((f.iter (h, 0, 0) n).2.1) := by
  obtain ⟨s, hr, hv⟩ := landing_speed_run f hl
  obtain ⟨n, hn, hstop, hout⟩ := run_spec f fuel _ s hr
  exact ⟨n, hn, hstop, by rw [hv, hout]⟩

lemma iter_one (f : Freefall) (h : ℚ) :
    f.iter (h, 0, 0) 1 = (h - f.g * tstep * tstep, f.g * tstep, tstep) := by
  show f.stepOnce (h, 0, 0) = _
  simp [Freefall.stepOnce, Prod.mk.injEq]

/-- The standard human model of the unit test, Freefall(85, 0.7). -/
def humanModel : Freefall := ⟨85, 7 / 10, 1, 6 / 5, 981 / 100⟩

lemma valid_humanModel : Valid humanModel := by
  refine ⟨?_, ?_, ?_, ?_, ?_, ?_⟩ <;> norm_num [humanModel]

/-- A valid vacuum model with unit parameters, used for concrete witnesses. -/
def vacModel : Freefall := ⟨1, 1, 1, 0, 1⟩

lemma valid_vacModel : Valid vacModel := by
  refine ⟨?_, ?_, ?_, ?_, ?_, ?_⟩ <;> norm_num [vacModel]

/-! The claims. -/

/-- Claim C1: for every valid model, terminal() returns the undefined
sentinel None exactly when airDensity = 0, and otherwise returns
sqrt(2 m g / (p C A)) rounded to 2 decimals, which is a nonnegative
(in particular finite) real; the function is total, so it never raises. -/
theorem terminal_velocity_spec (f : Freefall) (hf : Valid f) :
    (f.p = 0 ↔ f.terminal = Option.none) ∧
    ∀ v, f.terminal = some v →
      v = round2R (Real.sqrt (((2 * f.m * f.g) / (f.p * f.C * f.A) : ℚ) : ℝ)) ∧ 0 ≤ v := by
  constructor
  · constructor
    · intro hp; simp [Freefall.terminal, hp]
    · intro hnone
      by_contra hp
      simp [Freefall.terminal, hp] at hnone
  · intro v hv
    unfold Freefall.terminal at hv
    by_cases hp : f.p = 0
    · rw [if_pos hp] at hv; cases hv
    · rw [if_neg hp] at hv
      injection hv with hv
      refine ⟨hv.symm, ?_⟩
      rw [← hv]
      exact round2R_nonneg (Real.sqrt_nonneg _)

/-- Witness for C1 at the concrete valid model (1, 1, 1, 0, 1). -/
theorem terminal_velocity_spec_witness :
    Valid vacModel ∧ Freefall.terminal vacModel = Option.none :=
  ⟨valid_vacModel, (terminal_velocity_spec vacModel valid_vacModel).1.mp rfl⟩

/-- Claim C4: for identical inputs, AirTime and LandingSpeed are projections
of the same simulation run: whatever fuel lets each call return, they agree
on a single stopping step n, AirTime returning that step's rounded elapsed
time and LandingSpeed that step's rounded velocity. -/
theorem airtime_landing_same_stop (f : Freefall) (h : ℚ) (fuel1 fuel2 : ℕ) (t v : ℚ)
    (ha : f.air_time h fuel1 = some t) (hl : f.landing_speed h fuel2 = some v) :
    ∃ n, f.isStop (h, 0, 0) n ∧ t = round2 ((f.iter (h, 0, 0) n).2.2) ∧
      v = round2 ((f.iter (h, 0, 0) n).2.1) := by
  obtain ⟨s1, hr1, ht⟩ := air_time_run f ha
  obtain ⟨s2, hr2, hv⟩ := landing_speed_run f hl
  obtain ⟨n1, _, hstop1, hout1⟩ := run_spec f fuel1 _ s1 hr1
  obtain ⟨n2, _, hstop2, hout2⟩ := run_spec f fuel2 _ s2 hr2
  have heq : n1 = n2 := isStop_unique f _ hstop1 hstop2
  refine ⟨n1, hstop1, by rw [ht, hout1], ?_⟩
  rw [hv, hout2, ← heq]

/-- Witness for C4 on the human model with a one-step height. -/
theorem airtime_landing_same_stop_witness :
    ∃ n, Freefall.isStop humanModel ((1 : ℚ) / 10000, 0, 0) n ∧
      (1 : ℚ) / 100 = round2 ((Freefall.iter humanModel ((1 : ℚ) / 10000, 0, 0) n).2.2) ∧
      (1 : ℚ) / 10 = round2 ((Freefall.iter humanModel ((1 : ℚ) / 10000, 0, 0) n).2.1) :=
  airtime_landing_same_stop humanModel (1 / 10000) 1 1 (1 / 100) (1 / 10)
    (by norm_num [humanModel, Freefall.air_time, Freefall.calculator, Freefall.run,
          Freefall.stepOnce, round2, rnd2core, tstep])
    (by norm_num [humanModel, Freefall.landing_speed, Freefall.calculator, Freefall.run,
          Freefall.stepOnce, round2, rnd2core, tstep])

/-- Claim C5: in the single-step regime 0 < height <= gravity * 0.01^2 the
loop terminates after exactly one step, AirTime is 0.01 and LandingSpeed is
gravity * 0.01 rounded to 2 decimals. -/
theorem single_step_regime (f : Freefall) (hf : Valid f) (h : ℚ) (h0 : 0 < h)
    (hsmall : h ≤ f.g / 10000) (fuel : ℕ) (hfuel : 1 ≤ fuel) :
    f.air_time h fuel = some (1 / 100) ∧
    f.landing_speed h fuel = some (round2 (f.g / 100)) := by
  have hstop : f.isStop (h, 0, 0) 1 := by
    constructor
    · rw [iter_one]
      show h - f.g * tstep * tstep ≤ 0
      rw [tstep]
      have hgr : f.g * (1 / 100) * (1 / 100) = f.g / 10000 := by ring
      linarith
    · intro k hk
      interval_cases k
      simpa [iter_zero] using h0
  have hrun := run_of_isStop f 1 (h, 0, 0) fuel hstop hfuel
  constructor
  · unfold Freefall.air_time Freefall.calculator
    rw [hrun, iter_one]
    show some (round2 tstep) = some (1 / 100)
    norm_num [round2, rnd2core, tstep]
  · unfold Freefall.landing_speed Freefall.calculator
    rw [hrun, iter_one]
    show some (round2 (f.g * tstep)) = some (round2 (f.g / 100))
    rw [show f.g * tstep = f.g / 100 by rw [tstep]; ring]

/-- Witness for C5 on the human model. -/
theorem single_step_regime_witness :
    Freefall.air_time humanModel (1 / 10000) 1 = some (1 / 100) ∧
    Freefall.landing_speed humanModel (1 / 10000) 1 = some (round2 (humanModel.g / 100)) :=
  single_step_regime humanModel valid_humanModel (1 / 10000) (by norm_num)
    (by norm_num [humanModel]) 1 le_rfl

/-- Claim C9: the four queries are read-only and repeatable: each call leaves
the object exactly as it was (also on error paths), and repeating the call on
the object state a first call leaves behind returns the identical result. -/
theorem queries_read_only (f : Freefall) (height : PyVal) (fuel : ℕ) :
    f.propertiesS.2 = f ∧ f.terminalS.2 = f ∧
    (f.air_timeF height fuel).2 = f ∧ (f.landing_speedF height fuel).2 = f ∧
    (f.propertiesS.2).propertiesS = f.propertiesS ∧
    (f.terminalS.2).terminalS = f.terminalS ∧
    ((f.air_timeF height fuel).2).air_timeF height fuel = f.air_timeF height fuel ∧
    ((f.landing_speedF height fuel).2).landing_speedF height fuel =
      f.landing_speedF height fuel := by
  have hA : (f.air_timeF height fuel).2 = f := by
    unfold Freefall.air_timeF
    split_ifs <;> rfl
  have hL : (f.landing_speedF height fuel).2 = f := by
    unfold Freefall.landing_speedF
    split_ifs <;> rfl
  exact ⟨rfl, rfl, hA, hL, rfl, rfl, by rw [hA], by rw [hL]⟩

/-- Claim C10: with airDensity = 0 the loop always terminates: some fuel
makes both queries return a value. -/
theorem vacuum_termination (f : Freefall) (hf : Valid f) (hp : f.p = 0)
    (h : ℚ) (h0 : 0 < h) :
    ∃ fuel t v, f.air_time h fuel = some t ∧ f.landing_speed h fuel = some v := by
  have hg : 0 < f.g := hf.2.2.2.2.2
  obtain ⟨n, hn⟩ := exists_nat_ge (20000 * h / f.g)
  have hterm : (f.iter (h, 0, 0) n).1 ≤ 0 := by
    rw [vacuum_iter f hp]
    show h - f.g * n * (n + 1) / 20000 ≤ 0
    have h2 : 20000 * h ≤ (n : ℚ) * f.g := by
      rw [div_le_iff₀ hg] at hn; linarith
    have h3 : (0 : ℚ) ≤ (n : ℚ) := Nat.cast_nonneg n
    nlinarith
  have hex : ∃ k, (f.iter (h, 0, 0) k).1 ≤ 0 := ⟨n, hterm⟩
  have hstop : f.isStop (h, 0, 0) (Nat.find hex) :=
    ⟨Nat.find_spec hex, fun k hk => not_le.mp (Nat.find_min hex hk)⟩
  have hrun := run_of_isStop f (Nat.find hex) (h, 0, 0) (Nat.find hex) hstop le_rfl
  refine ⟨Nat.find hex, round2 ((f.iter (h, 0, 0) (Nat.find hex)).2.2),
    round2 ((f.iter (h, 0, 0) (Nat.find hex)).2.1), ?_, ?_⟩
  · unfold Freefall.air_time Freefall.calculator
    rw [hrun]
    rfl
  · unfold Freefall.landing_speed Freefall.calculator
    rw [hrun]
    rfl

/-- Witness for C10 at the concrete vacuum model. -/
theorem vacuum_termination_witness :
    ∃ fuel t v, Freefall.air_time vacModel (1 / 10000) fuel = some t ∧
      Freefall.landing_speed vacModel (1 / 10000) fuel = some v :=
  vacuum_termination vacModel valid_vacModel rfl (1 / 10000) (by norm_num)

/-- Claim C2 (amended): in vacuum, AirTime(h) is n * 0.01 at the unique
stopping step n (the least n with g * n * (n+1) / 20000 >= h), and this value
is within one timestep of sqrt(2 h / g); the exact equality with
round(sqrt(2 h / g), 2) claimed by the spec can fail. -/
theorem vacuum_airtime_step_count (f : Freefall) (hf : Valid f) (hp : f.p = 0)
    (h : ℚ) (h0 : 0 < h) (n fuel : ℕ) (hstop : f.isStop (h, 0, 0) n)
    (hfuel : n ≤ fuel) :
    f.air_time h fuel = some ((n : ℚ) * tstep) ∧
    |((n : ℚ) : ℝ) / 100 - Real.sqrt (2 * (h : ℝ) / (f.g : ℝ))| ≤ 1 / 100 := by
  have hg : 0 < f.g := hf.2.2.2.2.2
  have hrun := run_of_isStop f n (h, 0, 0) fuel hstop hfuel
  constructor
  · unfold Freefall.air_time Freefall.calculator
    rw [hrun]
    simp only [Option.map_some']
    rw [iter_time, zero_add, round2_nat_tstep]
  · have hn1 : 1 ≤ n := by
      by_contra hn
      have hn0 : n = 0 := by omega
      subst hn0
      have hc := hstop.1
      simp only [iter_zero] at hc
      exact absurd hc (not_le.mpr h0)
    have hupQ : h ≤ f.g * n * (n + 1) / 20000 := by
      have hc := hstop.1
      rw [vacuum_iter f hp] at hc
      have hc' : h - f.g * n * (n + 1) / 20000 ≤ 0 := hc
      linarith
    have hlowQ : f.g * ((n : ℚ) - 1) * n / 20000 < h := by
      have hkey := hstop.2 (n - 1) (by omega)
      rw [vacuum_iter f hp] at hkey
      have hc' : 0 < h - f.g * ((n - 1 : ℕ) : ℚ) * (((n - 1 : ℕ) : ℚ) + 1) / 20000 := hkey
      have hcast : ((n - 1 : ℕ) : ℚ) = (n : ℚ) - 1 := by
        rw [Nat.cast_sub hn1, Nat.cast_one]
      rw [hcast, show ((n : ℚ) - 1) + 1 = (n : ℚ) by ring] at hc'
      linarith
    have hgR : (0 : ℝ) < (f.g : ℝ) := by exact_mod_cast hg
    have hhR : (0 : ℝ) < (h : ℝ) := by exact_mod_cast h0
    have hn1R : (1 : ℝ) ≤ (n : ℝ) := by exact_mod_cast hn1
    have harg : (0 : ℝ) ≤ 2 * (h : ℝ) / (f.g : ℝ) := by positivity
    have hS0 : 0 ≤ Real.sqrt (2 * (h : ℝ) / (f.g : ℝ)) := Real.sqrt_nonneg _
    have hS2 : Real.sqrt (2 * (h : ℝ) / (f.g : ℝ)) ^ 2 = 2 * (h : ℝ) / (f.g : ℝ) :=
      Real.sq_sqrt harg
    have hupR : 2 * (h : ℝ) / (f.g : ℝ) ≤ (n : ℝ) * ((n : ℝ) + 1) / 10000 := by
      have hcast : (h : ℝ) ≤ (f.g : ℝ) * (n : ℝ) * ((n : ℝ) + 1) / 20000 := by
        exact_mod_cast hupQ
      rw [div_le_div_iff hgR (by norm_num)]
      nlinarith
    have hlowR : ((n : ℝ) - 1) * (n : ℝ) / 10000 < 2 * (h : ℝ) / (f.g : ℝ) := by
      have hcast : (f.g : ℝ) * ((n : ℝ) - 1) * (n : ℝ) / 20000 < (h : ℝ) := by
        exact_mod_cast hlowQ
      rw [div_lt_div_iff (by norm_num) hgR]
      nlinarith
    have hSle : Real.sqrt (2 * (h : ℝ) / (f.g : ℝ)) ≤ ((n : ℝ) + 1) / 100 := by
      have h1 : 2 * (h : ℝ) / (f.g : ℝ) ≤ (((n : ℝ) + 1) / 100) ^ 2 := by
        have hnn : (0 : ℝ) ≤ (n : ℝ) := by positivity
        nlinarith
      calc Real.sqrt (2 * (h : ℝ) / (f.g : ℝ))
          ≤ Real.sqrt ((((n : ℝ) + 1) / 100) ^ 2) := Real.sqrt_le_sqrt h1
        _ = ((n : ℝ) + 1) / 100 := Real.sqrt_sq (by positivity)
    have hSge : ((n : ℝ) - 1) / 100 ≤ Real.sqrt (2 * (h : ℝ) / (f.g : ℝ)) := by
      have h2 : (((n : ℝ) - 1) / 100) ^ 2 ≤ 2 * (h : ℝ) / (f.g : ℝ) := by
        nlinarith
      calc ((n : ℝ) - 1) / 100
          = Real.sqrt ((((n : ℝ) - 1) / 100) ^ 2) :=
            (Real.sqrt_sq (by apply div_nonneg <;> linarith)).symm
        _ ≤ Real.sqrt (2 * (h : ℝ) / (f.g : ℝ)) := Real.sqrt_le_sqrt h2
    rw [abs_le]
    push_cast
    constructor <;> linarith

/-- Witness for the amended C2 at the concrete vacuum model, height 1/10000,
stopping step 1. -/
theorem vacuum_airtime_step_count_witness :
    Freefall.air_time vacModel (1 / 10000) 1 = some (((1 : ℕ) : ℚ) * tstep) ∧
    |(((1 : ℕ) : ℚ) : ℝ) / 100 -
        Real.sqrt (2 * ((1 / 10000 : ℚ) : ℝ) / (vacModel.g : ℝ))| ≤ 1 / 100 :=
  vacuum_airtime_step_count vacModel valid_vacModel rfl (1 / 10000) (by norm_num) 1 1
    (by
      constructor
      · norm_num [vacModel, Freefall.iter, Freefall.stepOnce, tstep]
      · intro k hk
        interval_cases k
        norm_num [Freefall.iter])
    le_rfl

/-- Counterexample to C2 as stated: at the valid vacuum model with unit
parameters and height 841/8000000 the simulation returns 0.02, but
round(sqrt(2 h / g), 2) = round(0.0145, 2) = 0.01. -/
theorem vacuum_airtime_closed_form_cex :
    Valid vacModel ∧ vacModel.p = 0 ∧ (0 : ℚ) < 841 / 8000000 ∧
    ¬ ((Freefall.air_time vacModel (841 / 8000000) 5).map (fun q : ℚ => (q : ℝ)) =
        some (round2R (Real.sqrt (2 * ((841 / 8000000 : ℚ) : ℝ) / (vacModel.g : ℝ))))) := by
  refine ⟨valid_vacModel, rfl, by norm_num, ?_⟩
  have hat : Freefall.air_time vacModel (841 / 8000000) 5 = some (1 / 50) := by
    norm_num [vacModel, Freefall.air_time, Freefall.calculator, Freefall.run,
      Freefall.stepOnce, round2, rnd2core, tstep]
  rw [hat]
  have hg : (vacModel.g : ℝ) = 1 := by norm_num [vacModel]
  rw [hg]
  have harg : 2 * ((841 / 8000000 : ℚ) : ℝ) / 1 = ((29 / 2000 : ℚ) : ℝ) ^ 2 := by
    push_cast
    norm_num
  rw [harg, Real.sqrt_sq (by positivity), round2R_ratCast]
  have hr : round2 (29 / 2000 : ℚ) = 1 / 100 := by norm_num [round2, rnd2core]
  rw [hr]
  simp only [Option.map_some']
  intro hcon
  injection hcon with hcon
  have hc2 : (1 / 50 : ℚ) = 1 / 100 := by exact_mod_cast hcon
  norm_num at hc2

/-- Claim C3 (amended): for a fixed valid model and heights 0 < h1 <= h2 on
which the fuelled simulation returns, AirTime(h1) <= AirTime(h2) always;
LandingSpeed(h1) <= LandingSpeed(h2) holds provided the simulated velocity
sequence is nondecreasing below the fuel bound used for h2 (the Euler step
can violate this by overshooting terminal velocity). -/
theorem monotone_queries (f : Freefall) (hf : Valid f) (h1 h2 : ℚ)
    (h01 : 0 < h1) (h12 : h1 ≤ h2) (fuel1 fuel2 : ℕ) (t1 t2 v1 v2 : ℚ)
    (ha1 : f.air_time h1 fuel1 = some t1) (ha2 : f.air_time h2 fuel2 = some t2)
    (hl1 : f.landing_speed h1 fuel1 = some v1)
    (hl2 : f.landing_speed h2 fuel2 = some v2) :
    t1 ≤ t2 ∧
    ((∀ k < fuel2, (f.iter (0, 0, 0) k).2.1 ≤ (f.iter (0, 0, 0) (k + 1)).2.1) →
      v1 ≤ v2) := by
  obtain ⟨n1, hn1f, hstop1, ht1⟩ := air_time_stop f ha1
  obtain ⟨n2, hn2f, hstop2, ht2⟩ := air_time_stop f ha2
  obtain ⟨m1, _, hstopl1, hv1⟩ := landing_speed_stop f hl1
  obtain ⟨m2, _, hstopl2, hv2⟩ := landing_speed_stop f hl2
  have hm1 : m1 = n1 := isStop_unique f _ hstopl1 hstop1
  have hm2 : m2 = n2 := isStop_unique f _ hstopl2 hstop2
  rw [hm1] at hv1
  rw [hm2] at hv2
  have hle : n1 ≤ n2 := by
    by_contra hlt
    push_neg at hlt
    have hpos := hstop1.2 n2 hlt
    have hneg := hstop2.1
    have haff := (iter_affine f h1 h2 0 0 0 n2).2
    linarith
  constructor
  · rw [ht1, ht2, tstep]
    have hc : (n1 : ℚ) ≤ (n2 : ℚ) := by exact_mod_cast hle
    linarith
  · intro hmono
    rw [hv1, hv2]
    rw [(iter_affine f h1 0 0 0 0 n1).1, (iter_affine f h2 0 0 0 0 n2).1]
    refine round2_mono ?_
    have hchain : ∀ d, n1 + d ≤ n2 →
        (f.iter (0, 0, 0) n1).2.1 ≤ (f.iter (0, 0, 0) (n1 + d)).2.1 := by
      intro d
      induction d with
      | zero => intro _; exact le_rfl
      | succ d ih =>
          intro hd
          have hstep := hmono (n1 + d) (by omega)
          have hprev := ih (by omega)
          exact le_trans hprev hstep
    have hfin := hchain (n2 - n1) (by omega)
    rw [show n1 + (n2 - n1) = n2 by omega] at hfin
    exact hfin

/-- Witness for the amended C3 on the vacuum model: h1 = 1/10000 stops at
step 1, h2 = 3/10000 stops at step 2, with monotone velocities. -/
theorem monotone_queries_witness :
    ((1 : ℚ) / 100 ≤ 2 / 100) ∧ ((1 : ℚ) / 100 ≤ 2 / 100) := by
  have H := monotone_queries vacModel valid_vacModel (1 / 10000) (3 / 10000)
    (by norm_num) (by norm_num) 2 2 (1 / 100) (2 / 100) (1 / 100) (2 / 100)
    (by norm_num [vacModel, Freefall.air_time, Freefall.calculator, Freefall.run,
        Freefall.stepOnce, round2, rnd2core, tstep])
    (by norm_num [vacModel, Freefall.air_time, Freefall.calculator, Freefall.run,
        Freefall.stepOnce, round2, rnd2core, tstep])
    (by norm_num [vacModel, Freefall.landing_speed, Freefall.calculator, Freefall.run,
        Freefall.stepOnce, round2, rnd2core, tstep])
    (by norm_num [vacModel, Freefall.landing_speed, Freefall.calculator, Freefall.run,
        Freefall.stepOnce, round2, rnd2core, tstep])
  refine ⟨H.1, H.2 ?_⟩
  intro k hk
  interval_cases k <;>
    norm_num [vacModel, Freefall.iter, Freefall.stepOnce, tstep]

/-- The valid model m=1, A=1, C=1, airDensity=9800, g=1, for which one Euler
step overshoots the terminal velocity sqrt(g / 4900). -/
def overshootModel : Freefall := ⟨1, 1, 1, 9800, 1⟩

/-- Counterexample to C3 as stated: on `overshootModel` the landing speed at
height 0.0002 is 0.02 m/s but at the larger height 0.0003 it is 0.01 m/s. -/
theorem landing_speed_monotone_cex :
    Valid overshootModel ∧ (0 : ℚ) < 1 / 5000 ∧ (1 / 5000 : ℚ) ≤ 3 / 10000 ∧
    Freefall.landing_speed overshootModel (1 / 5000) 5 = some (1 / 50) ∧
    Freefall.landing_speed overshootModel (3 / 10000) 5 = some (1 / 100) ∧
    ¬ ((1 : ℚ) / 50 ≤ 1 / 100) := by
  refine ⟨?_, by norm_num, by norm_num, ?_, ?_, by norm_num⟩
  · refine ⟨?_, ?_, ?_, ?_, ?_, ?_⟩ <;> norm_num [overshootModel]
  · norm_num [overshootModel, Freefall.landing_speed, Freefall.calculator, Freefall.run,
      Freefall.stepOnce, round2, rnd2core, tstep]
  · norm_num [overshootModel, Freefall.landing_speed, Freefall.calculator, Freefall.run,
      Freefall.stepOnce, round2, rnd2core, tstep]

/-- Claim C6 (amended): text, None and structured values are rejected with a
TypeError in every argument position of construction, the setters and the two
height queries; but booleans pass the isinstance(int, float) check (Python
bool is a subclass of int, True = 1 and False = 0), so only non-int/float/bool
values are rejected, and int, float and bool all count as numeric. -/
theorem type_check_amended :
    (∀ n : ℤ, isNum (.int n) = true) ∧
    (∀ q : ℚ, isNum (.float q) = true) ∧
    (∀ b : Bool, isNum (.bool b) = true) ∧
    (∀ s : String, isNum (.str s) = false) ∧
    isNum PyVal.none = false ∧
    (∀ l : List PyVal, isNum (.list l) = false) ∧
    (∀ mass area dc de gr : PyVal,
      (isNum mass && isNum area && isNum dc && isNum de && isNum gr) = false →
      Freefall.construct mass area dc de gr = .error .typeError) ∧
    (∀ (f : Freefall) (v : PyVal), isNum v = false →
      f.set_drag_coef v = (f, some .typeError) ∧
      f.set_density v = (f, some .typeError) ∧
      f.set_gravity v = (f, some .typeError)) ∧
    (∀ (f : Freefall) (ma ar : PyVal), (isNum ma && isNum ar) = false →
      f.set_size ma ar = (f, some .typeError)) ∧
    (∀ (f : Freefall) (v : PyVal) (fuel : ℕ), isNum v = false →
      f.air_timeF v fuel = (.error .typeError, f) ∧
      f.landing_speedF v fuel = (.error .typeError, f)) := by
  refine ⟨fun n => rfl, fun q => rfl, fun b => rfl, fun s => rfl, rfl, fun l => rfl,
    ?_, ?_, ?_, ?_⟩
  · intro mass area dc de gr h
    simp [Freefall.construct, h]
  · intro f v h
    refine ⟨?_, ?_, ?_⟩ <;>
      simp [Freefall.set_drag_coef, Freefall.set_density, Freefall.set_gravity, h]
  · intro f ma ar h
    simp [Freefall.set_size, h]
  · intro f v fuel h
    constructor <;> simp [Freefall.air_timeF, Freefall.landing_speedF, h]

/-- Witness for the amended C6: a text argument is rejected in construction,
a setter and a query. -/
theorem type_check_amended_witness :
    Freefall.construct (.str "85") (.float (7 / 10)) (.float 1) (.float (6 / 5))
        (.float (981 / 100)) = .error .typeError ∧
    Freefall.set_drag_coef humanModel (.str "x") = (humanModel, some .typeError) ∧
    Freefall.air_timeF humanModel PyVal.none 1 = (.error .typeError, humanModel) := by
  refine ⟨?_, ?_, ?_⟩
  · exact type_check_amended.2.2.2.2.2.2.1 _ _ _ _ _ rfl
  · exact (type_check_amended.2.2.2.2.2.2.2.1 humanModel (.str "x") rfl).1
  · exact (type_check_amended.2.2.2.2.2.2.2.2.2 humanModel PyVal.none 1 rfl).1

/-- Counterexample to C6 as stated: a boolean mass is accepted by the
constructor (Python bool passes isinstance(x, (int, float)) with True = 1)
and a boolean gravity is accepted by set_gravity, instead of the claimed
TypeError. -/
theorem bool_accepted_cex :
    Freefall.construct (.bool true) (.int 1) (.int 1) (.int 1) (.int 1) =
      .ok ⟨1, 1, 1, 1, 1⟩ ∧
    Freefall.set_gravity humanModel (.bool true) =
      ({ humanModel with g := 1 }, Option.none) := by
  constructor
  · norm_num [Freefall.construct, isNum, numVal]
  · norm_num [Freefall.set_gravity, isNum, numVal]

/-- Claim C7: every setter is atomic (on any failure no field changes, on
success exactly the documented fields change, set_size updating both), and
the constructor either fails with one of the two errors producing no object
or yields the fully initialized record. -/
theorem atomic_mutation :
    (∀ (f : Freefall) (ma ar : PyVal),
      ((f.set_size ma ar).2 ≠ Option.none → (f.set_size ma ar).1 = f) ∧
      ((f.set_size ma ar).2 = Option.none →
        (f.set_size ma ar).1 = ⟨numVal ma, numVal ar, f.C, f.p, f.g⟩)) ∧
    (∀ (f : Freefall) (v : PyVal),
      ((f.set_drag_coef v).2 ≠ Option.none → (f.set_drag_coef v).1 = f) ∧
      ((f.set_drag_coef v).2 = Option.none →
        (f.set_drag_coef v).1 = ⟨f.m, f.A, numVal v, f.p, f.g⟩)) ∧
    (∀ (f : Freefall) (v : PyVal),
      ((f.set_density v).2 ≠ Option.none → (f.set_density v).1 = f) ∧
      ((f.set_density v).2 = Option.none →
        (f.set_density v).1 = ⟨f.m, f.A, f.C, numVal v, f.g⟩)) ∧
    (∀ (f : Freefall) (v : PyVal),
      ((f.set_gravity v).2 ≠ Option.none → (f.set_gravity v).1 = f) ∧
      ((f.set_gravity v).2 = Option.none →
        (f.set_gravity v).1 = ⟨f.m, f.A, f.C, f.p, numVal v⟩)) ∧
    (∀ ma ar dc de gr : PyVal,
      Freefall.construct ma ar dc de gr = .error .typeError ∨
      Freefall.construct ma ar dc de gr = .error .valueError ∨
      Freefall.construct ma ar dc de gr =
        .ok ⟨numVal ma, numVal ar, numVal dc, numVal de, numVal gr⟩) := by
  refine ⟨?_, ?_, ?_, ?_, ?_⟩
  · intro f ma ar
    unfold Freefall.set_size
    split_ifs <;> constructor <;> intro h <;> first | rfl | simp at h
  · intro f v
    unfold Freefall.set_drag_coef
    split_ifs <;> constructor <;> intro h <;> first | rfl | simp at h
  · intro f v
    unfold Freefall.set_density
    split_ifs <;> constructor <;> intro h <;> first | rfl | simp at h
  · intro f v
    unfold Freefall.set_gravity
    split_ifs <;> constructor <;> intro h <;> first | rfl | simp at h
  · intro ma ar dc de gr
    unfold Freefall.construct
    split_ifs <;> simp

/-- Witness for C7: a failing set_size changes nothing, a successful one
updates exactly mass and area. -/
theorem atomic_mutation_witness :
    (Freefall.set_size humanModel (.str "x") (.int 1)).1 = humanModel ∧
    (Freefall.set_size humanModel (.int 80) (.float (3 / 5))).1 =
      ⟨numVal (.int 80), numVal (.float (3 / 5)), humanModel.C, humanModel.p,
        humanModel.g⟩ := by
  constructor
  · exact (atomic_mutation.1 humanModel (.str "x") (.int 1)).1
      (by simp [Freefall.set_size, isNum])
  · exact (atomic_mutation.1 humanModel (.int 80) (.float (3 / 5))).2
      (by norm_num [Freefall.set_size, isNum, numVal, humanModel])

/-- Claim C8: the five-field invariant holds after every successful
construction and is preserved by every successful setter call. -/
theorem invariants_preserved :
    (∀ (ma ar dc de gr : PyVal) (f : Freefall),
      Freefall.construct ma ar dc de gr = .ok f → Valid f) ∧
    (∀ (f : Freefall) (v : PyVal), Valid f →
      (f.set_drag_coef v).2 = Option.none → Valid (f.set_drag_coef v).1) ∧
    (∀ (f : Freefall) (v : PyVal), Valid f →
      (f.set_density v).2 = Option.none → Valid (f.set_density v).1) ∧
    (∀ (f : Freefall) (v : PyVal), Valid f →
      (f.set_gravity v).2 = Option.none → Valid (f.set_gravity v).1) ∧
    (∀ (f : Freefall) (ma ar : PyVal), Valid f →
      (f.set_size ma ar).2 = Option.none → Valid (f.set_size ma ar).1) := by
  refine ⟨?_, ?_, ?_, ?_, ?_⟩
  · intro ma ar dc de gr f hok
    unfold Freefall.construct at hok
    split_ifs at hok with h1 h2 h3
    push_neg at h2 h3
    injection hok with hok
    rw [← hok]
    exact ⟨h2.1, h2.2.1, h2.2.2.1, h3.1, h3.2, h2.2.2.2⟩
  · intro f v hf hsucc
    unfold Freefall.set_drag_coef at hsucc ⊢
    split_ifs at hsucc ⊢ with h1 h2
    push_neg at h2
    exact ⟨hf.1, hf.2.1, h2.1, h2.2, hf.2.2.2.2.1, hf.2.2.2.2.2⟩
  · intro f v hf hsucc
    unfold Freefall.set_density at hsucc ⊢
    split_ifs at hsucc ⊢ with h1 h2
    push_neg at h2
    exact ⟨hf.1, hf.2.1, hf.2.2.1, hf.2.2.2.1, h2, hf.2.2.2.2.2⟩
  · intro f v hf hsucc
    unfold Freefall.set_gravity at hsucc ⊢
    split_ifs at hsucc ⊢ with h1 h2
    push_neg at h2
    exact ⟨hf.1, hf.2.1, hf.2.2.1, hf.2.2.2.1, hf.2.2.2.2.1, h2⟩
  · intro f ma ar hf hsucc
    unfold Freefall.set_size at hsucc ⊢
    split_ifs at hsucc ⊢ with h1 h2
    push_neg at h2
    exact ⟨h2.1, h2.2, hf.2.2.1, hf.2.2.2.1, hf.2.2.2.2.1, hf.2.2.2.2.2⟩

/-- Witness for C8: a successful set_drag_coef call preserves validity. -/
theorem invariants_preserved_witness :
    Valid (Freefall.set_drag_coef humanModel (.float (1 / 2))).1 :=
  invariants_preserved.2.1 humanModel (.float (1 / 2)) valid_humanModel
    (by norm_num [Freefall.set_drag_coef, isNum, numVal])
